import Mathlib

/-
Verification of the LSQR solver (`nlpy/optimize/solvers/lsqr.py`,
`LSQRFramework.solve`) against its specification.

Embedding conventions:
* Vectors are lists of rationals; numpy elementwise operations become
  `List.zipWith` / `List.map` operations.
* Floating-point scalars are idealized as exact rationals.  The square root
  has no rational realization, so every definition is parametrized by an
  oracle `sq : Q -> Q`; theorems that need genuine square-root facts take
  them as hypotheses about `sq` at the finitely many radicands involved
  (all satisfiable by a lookup table at concrete inputs).
* Division by zero in the source would raise in Python; in the rational
  idealization `a / 0 = 0`.  No claim below depends on a division-by-zero
  path except where noted in comments.
* `test3 = inf` (source line 311, when `acond == 0`) is embedded as
  `Option Q` with `none` standing for plus infinity, which satisfies no
  `<=` bound, exactly as the IEEE comparisons in the source behave.
* The iteration log (`show`/`print`) is purely observational and omitted.
-/

namespace LSQR

abbrev Vec := List ℚ

/-- Euclidean inner product of two vectors (numpy `dot`). -/
def dot (x y : Vec) : ℚ := (List.zipWith (fun a b => a * b) x y).sum

/-- Scalar times vector (numpy `a * x`). -/
def smul (a : ℚ) (x : Vec) : Vec := x.map (fun t => a * t)

/-- Elementwise sum (numpy `x + y`). -/
def vadd (x y : Vec) : Vec := List.zipWith (fun a b => a + b) x y

/-- Elementwise difference (numpy `x - y`). -/
def vsub (x y : Vec) : Vec := List.zipWith (fun a b => a - b) x y

/-- Elementwise division by a scalar (numpy `x / a`). -/
def vdiv (x : Vec) (a : ℚ) : Vec := x.map (fun t => t / a)

/-- Source line 21: `normof2(x, y) = sqrt(x**2 + y**2)`. -/
def normof2 (sq : ℚ → ℚ) (x y : ℚ) : ℚ := sq (x ^ 2 + y ^ 2)

/-- Source line 22: `normof4` is the 4-term Euclidean combination. -/
def normof4 (sq : ℚ → ℚ) (x1 x2 x3 x4 : ℚ) : ℚ :=
  sq (x1 ^ 2 + x2 ^ 2 + x3 ^ 2 + x4 ^ 2)

/-- A linear operator supplied through its forward and transpose products
(the solver never inspects anything else). -/
structure LinOp where
  m : ℕ
  n : ℕ
  apply : Vec → Vec
  applyT : Vec → Vec

/-- The local variable `ctol` as the source computes it: line 137 sets the
local `ctol = 0.0`, and line 138 assigns `1.0/conlim` to the attribute
`self.ctol`, so the local `ctol` consulted by the stopping test at line 330
remains 0 for every `conlim`. -/
def ctolLocal (conlim : ℚ) : ℚ := 0

/-- Read-only per-call context: square-root oracle, operator, scalar
controls, the local `ctol`, optional trust-region radius, and the effective
iteration limit (already defaulted to `3 n` when the caller passed 0). -/
structure Ctx where
  sq : ℚ → ℚ
  A : LinOp
  damp : ℚ
  atol : ℚ
  btol : ℚ
  ctol : ℚ
  radius : Option ℚ
  itnlim : ℕ

/-- Mutable state of one in-flight solve, one field per source local. -/
structure State where
  x : Vec
  u : Vec
  v : Vec
  w : Vec
  alfa : ℚ
  rhobar : ℚ
  phibar : ℚ
  cs2 : ℚ
  sn2 : ℚ
  z : ℚ
  xnorm : ℚ
  xxnorm : ℚ
  ddnorm : ℚ
  res2 : ℚ
  anorm : ℚ
  acond : ℚ
  rnorm : ℚ
  r1norm : ℚ
  r2norm : ℚ
  arnorm : ℚ
  bnorm : ℚ
  itn : ℕ
  istop : ℕ
  trActive : Bool
  deriving DecidableEq

/-- Result record returned by `solve` (the fields stored on the object at
source lines 378-388). -/
structure Result where
  x : Vec
  istop : ℕ
  itn : ℕ
  r1norm : ℚ
  r2norm : ℚ
  anorm : ℚ
  acond : ℚ
  arnorm : ℚ
  xnorm : ℚ
  onBoundary : Bool
  deriving DecidableEq

/-- Comparison `t <= y` where `t` may be plus infinity (`none`); infinity
satisfies no bound, matching the IEEE semantics of source lines 324, 330. -/
def infLe (x : Option ℚ) (y : ℚ) : Bool :=
  match x with
  | none => false
  | some t => decide (t ≤ y)

/-- Check `1 + test3 <= 1` with `test3` possibly infinite (source line 324). -/
def onePlusLeOne (x : Option ℚ) : Bool :=
  match x with
  | none => false
  | some t => decide (1 + t ≤ 1)

/-- Stop-code assignment cascade, a line-by-line transcription of source
lines 323-332: each satisfied test overwrites the previous assignment, the
machine-precision guards (codes 7, 6, 5, 4) running before the user
tolerance tests (codes 3, 2, 1). -/
def computeIstop (istop itn itnlim : ℕ) (test1 test2 : ℚ) (test3 : Option ℚ)
    (t1 rtol atol ctol : ℚ) : ℕ :=
  let i7 := if itnlim ≤ itn then 7 else istop
  let i6 := if onePlusLeOne test3 then 6 else i7
  let i5 := if 1 + test2 ≤ 1 then 5 else i6
  let i4 := if 1 + t1 ≤ 1 then 4 else i5
  let i3 := if infLe test3 ctol then 3 else i4
  let i2 := if test2 ≤ atol then 2 else i3
  if test1 ≤ rtol then 1 else i2

/-- The ordered list of stopping tests of the spec (section 4.4): guards
first (7, 6, 5, 4), then user tolerances (3, 2, 1), in evaluation order. -/
def stopConds (itn itnlim : ℕ) (test1 test2 : ℚ) (test3 : Option ℚ)
    (t1 rtol atol ctol : ℚ) : List (ℕ × Bool) :=
  [(7, decide (itnlim ≤ itn)),
   (6, onePlusLeOne test3),
   (5, decide (1 + test2 ≤ 1)),
   (4, decide (1 + t1 ≤ 1)),
   (3, infLe test3 ctol),
   (2, decide (test2 ≤ atol)),
   (1, decide (test1 ≤ rtol))]

/-- Spec-side policy: the last satisfied test in the fixed evaluation order
wins; an unsatisfied list leaves the incoming code. -/
def lastSatisfied (init : ℕ) (l : List (ℕ × Bool)) : ℕ :=
  l.foldl (fun acc p => if p.2 then p.1 else acc) init

/-- Modelled from the spec: the helper `roots_quadratic` is imported from
`nlpy.tools.utils`, which is not among the provided source files.  Per the
spec (section 4.3.5) it returns the real roots of `a*s^2 + b*s + c = 0`;
`sq` is the square-root oracle.  A negative discriminant yields no real
root; the doubly degenerate case `a = b = 0` is represented by the empty
list. -/
def rootsQuadratic (sq : ℚ → ℚ) (a b c : ℚ) : List ℚ :=
  if a = 0 then (if b = 0 then [] else [-c / b]) else
  if b ^ 2 - 4 * a * c < 0 then [] else
  [(-b + sq (b ^ 2 - 4 * a * c)) / (2 * a),
   (-b - sq (b ^ 2 - 4 * a * c)) / (2 * a)]

/-- Maximum of a list of rationals.  Python `max` raises `ValueError` on an
empty list (a path outside every claim); this total embedding returns 0
there. -/
def listMax : List ℚ → ℚ
  | [] => 0
  | [a] => a
  | a :: b :: t => max a (listMax (b :: t))

/-- Initial `u = rhs[:m]` (source line 161): numpy slicing silently
truncates when `rhs` is shorter than `m`, exactly like `List.take`. -/
def initU (A : LinOp) (rhs : Vec) : Vec := rhs.take A.m

/-- Initial `beta = norm(u)` (source line 162). -/
def initBeta (sq : ℚ → ℚ) (A : LinOp) (rhs : Vec) : ℚ :=
  sq (dot (initU A rhs) (initU A rhs))

/-- Initial unnormalized `v = A.T * u` computed inside `if beta > 0`
(source line 164). -/
def initVraw (sq : ℚ → ℚ) (A : LinOp) (rhs : Vec) : Vec :=
  A.applyT (vdiv (initU A rhs) (initBeta sq A rhs))

/-- Initial `alfa`: `norm(v)` when `beta > 0`, otherwise it keeps its
initialization 0 (source lines 162-165). -/
def initAlfa (sq : ℚ → ℚ) (A : LinOp) (rhs : Vec) : ℚ :=
  if 0 < initBeta sq A rhs then
    sq (dot (initVraw sq A rhs) (initVraw sq A rhs))
  else 0

/-- State after the setup block of `solve` (source lines 136-181).  In the
source, `v` is undefined when `beta <= 0` and `w` is undefined when
`alfa <= 0` (a `NameError` would occur if they were read, but the loop is
then never entered since `arnorm = alfa * beta = 0`); the embedding uses
`[]` for those never-read values. -/
def initState (sq : ℚ → ℚ) (A : LinOp) (rhs : Vec) : State :=
  { x := List.replicate A.n 0
    u := if 0 < initBeta sq A rhs then
           vdiv (initU A rhs) (initBeta sq A rhs)
         else initU A rhs
    v := if 0 < initAlfa sq A rhs then
           vdiv (initVraw sq A rhs) (initAlfa sq A rhs)
         else if 0 < initBeta sq A rhs then initVraw sq A rhs else []
    w := if 0 < initAlfa sq A rhs then
           vdiv (initVraw sq A rhs) (initAlfa sq A rhs)
         else []
    alfa := initAlfa sq A rhs
    rhobar := initAlfa sq A rhs
    phibar := initBeta sq A rhs
    cs2 := -1
    sn2 := 0
    z := 0
    xnorm := 0
    xxnorm := 0
    ddnorm := 0
    res2 := 0
    anorm := 0
    acond := 0
    rnorm := initBeta sq A rhs
    r1norm := initBeta sq A rhs
    r2norm := initBeta sq A rhs
    arnorm := initAlfa sq A rhs * initBeta sq A rhs
    bnorm := initBeta sq A rhs
    itn := 0
    istop := 0
    trActive := false }

/-- Bidiagonalization update `u = A*v - alfa*u` before renormalization
(source line 204). -/
def iterUraw (c : Ctx) (s : State) : Vec :=
  vsub (c.A.apply s.v) (smul s.alfa s.u)

/-- Fresh `beta = norm(u)` (source line 205). -/
def iterBeta (c : Ctx) (s : State) : ℚ :=
  c.sq (dot (iterUraw c s) (iterUraw c s))

/-- New `u`: renormalized only when `beta > 0` (source lines 206-207). -/
def iterU (c : Ctx) (s : State) : Vec :=
  if 0 < iterBeta c s then vdiv (iterUraw c s) (iterBeta c s) else iterUraw c s

/-- New `anorm`, updated only when `beta > 0` (source line 208). -/
def iterAnorm (c : Ctx) (s : State) : ℚ :=
  if 0 < iterBeta c s then normof4 c.sq s.anorm s.alfa (iterBeta c s) c.damp
  else s.anorm

/-- Unnormalized `v = A.T*u - beta*v`, computed inside `if beta > 0`
(source line 209). -/
def iterVraw (c : Ctx) (s : State) : Vec :=
  vsub (c.A.applyT (vdiv (iterUraw c s) (iterBeta c s)))
    (smul (iterBeta c s) s.v)

/-- Fresh `alfa = norm(v)` inside `if beta > 0` (source line 210). -/
def iterAlfaRaw (c : Ctx) (s : State) : ℚ :=
  c.sq (dot (iterVraw c s) (iterVraw c s))

/-- New `v`: untouched when `beta <= 0`, renormalized only when the fresh
`alfa > 0` (source lines 206-211). -/
def iterV (c : Ctx) (s : State) : Vec :=
  if 0 < iterBeta c s then
    (if 0 < iterAlfaRaw c s then vdiv (iterVraw c s) (iterAlfaRaw c s)
     else iterVraw c s)
  else s.v

/-- New `alfa`: untouched when `beta <= 0` (source lines 206-211). -/
def iterAlfa (c : Ctx) (s : State) : ℚ :=
  if 0 < iterBeta c s then iterAlfaRaw c s else s.alfa

/-- `rhobar1 = normof2(rhobar, damp)` (source line 216). -/
def iterRhobar1 (c : Ctx) (s : State) : ℚ := normof2 c.sq s.rhobar c.damp

/-- `cs1 = rhobar / rhobar1` (source line 217). -/
def iterCs1 (c : Ctx) (s : State) : ℚ := s.rhobar / iterRhobar1 c s

/-- `sn1 = damp / rhobar1` (source line 218). -/
def iterSn1 (c : Ctx) (s : State) : ℚ := c.damp / iterRhobar1 c s

/-- `psi = sn1 * phibar` (source line 219). -/
def iterPsi (c : Ctx) (s : State) : ℚ := iterSn1 c s * s.phibar

/-- `phibar = cs1 * phibar` after the damping rotation (source line 220). -/
def iterPhibarMid (c : Ctx) (s : State) : ℚ := iterCs1 c s * s.phibar

/-- `rho = normof2(rhobar1, beta)` (source line 225). -/
def iterRho (c : Ctx) (s : State) : ℚ :=
  normof2 c.sq (iterRhobar1 c s) (iterBeta c s)

/-- `cs = rhobar1 / rho` (source line 226). -/
def iterCs (c : Ctx) (s : State) : ℚ := iterRhobar1 c s / iterRho c s

/-- `sn = beta / rho` (source line 227). -/
def iterSn (c : Ctx) (s : State) : ℚ := iterBeta c s / iterRho c s

/-- `theta = sn * alfa` (source line 228). -/
def iterTheta (c : Ctx) (s : State) : ℚ := iterSn c s * iterAlfa c s

/-- `rhobar = -cs * alfa` (source line 229). -/
def iterRhobarNew (c : Ctx) (s : State) : ℚ := -(iterCs c s * iterAlfa c s)

/-- `phi = cs * phibar` (source line 230). -/
def iterPhi (c : Ctx) (s : State) : ℚ := iterCs c s * iterPhibarMid c s

/-- `phibar = sn * phibar` (source line 231). -/
def iterPhibarNew (c : Ctx) (s : State) : ℚ := iterSn c s * iterPhibarMid c s

/-- `tau = sn * phi` (source line 232). -/
def iterTau (c : Ctx) (s : State) : ℚ := iterSn c s * iterPhi c s

/-- `t1 = phi / rho` (source line 236). -/
def iterT1 (c : Ctx) (s : State) : ℚ := iterPhi c s / iterRho c s

/-- `t2 = -theta / rho` (source line 237). -/
def iterT2 (c : Ctx) (s : State) : ℚ := -(iterTheta c s / iterRho c s)

/-- `dk = (1/rho) * w` (source line 238). -/
def iterDk (c : Ctx) (s : State) : Vec := smul (1 / iterRho c s) s.w

/-- Candidate magnitudes for the trust-region step: the absolute values of
the quadratic roots sharing the sign of `t1` (source lines 247-251). -/
def trCands (c : Ctx) (s : State) (rad : ℚ) : List ℚ :=
  ((rootsQuadratic c.sq (dot s.w s.w) (2 * dot s.x s.w)
      (s.xnorm * s.xnorm - rad * rad)).filter
    (fun r => 0 < r * iterT1 c s)).map (fun r => |r|)

/-- `stepMax` as the source computes it: the maximum of the absolute values
of the sign-compatible roots — a nonnegative magnitude, not a signed root
(source line 251). -/
def trStepMax (c : Ctx) (s : State) (rad : ℚ) : ℚ := listMax (trCands c s rad)

/-- Full-step update of `x` (source line 261). -/
def iterX (c : Ctx) (s : State) : Vec := vadd s.x (smul (iterT1 c s) s.w)

/-- Full-step update of `w` (source line 262); uses the already-updated `v`. -/
def iterW (c : Ctx) (s : State) : Vec :=
  vadd (smul (iterT2 c s) s.w) (iterV c s)

/-- `ddnorm = ddnorm + norm(dk)**2` (source line 263): the source takes a
square root and squares it back. -/
def iterDdnorm (c : Ctx) (s : State) : ℚ :=
  s.ddnorm + (c.sq (dot (iterDk c s) (iterDk c s))) ^ 2

/-- `delta = sn2 * rho` (source line 270). -/
def iterDelta (c : Ctx) (s : State) : ℚ := s.sn2 * iterRho c s

/-- `gambar = -cs2 * rho` (source line 271). -/
def iterGambar (c : Ctx) (s : State) : ℚ := -(s.cs2 * iterRho c s)

/-- `rhs = phi - delta * z` (source line 272). -/
def iterRhs (c : Ctx) (s : State) : ℚ :=
  iterPhi c s - iterDelta c s * s.z

/-- `zbar = rhs / gambar` (source line 273). -/
def iterZbar (c : Ctx) (s : State) : ℚ := iterRhs c s / iterGambar c s

/-- `xnorm = sqrt(xxnorm + zbar**2)`, using the not-yet-updated `xxnorm`
(source line 274). -/
def iterXnorm (c : Ctx) (s : State) : ℚ :=
  c.sq (s.xxnorm + iterZbar c s ^ 2)

/-- `gamma = normof2(gambar, theta)` (source line 275). -/
def iterGamma (c : Ctx) (s : State) : ℚ :=
  normof2 c.sq (iterGambar c s) (iterTheta c s)

/-- `cs2 = gambar / gamma` (source line 276). -/
def iterCs2 (c : Ctx) (s : State) : ℚ := iterGambar c s / iterGamma c s

/-- `sn2 = theta / gamma` (source line 277). -/
def iterSn2 (c : Ctx) (s : State) : ℚ := iterTheta c s / iterGamma c s

/-- `z = rhs / gamma` (source line 278). -/
def iterZ (c : Ctx) (s : State) : ℚ := iterRhs c s / iterGamma c s

/-- `xxnorm = xxnorm + z*z` (source line 279). -/
def iterXxnorm (c : Ctx) (s : State) : ℚ :=
  s.xxnorm + iterZ c s * iterZ c s

/-- `acond = anorm * sqrt(ddnorm)` (source line 285). -/
def iterAcond (c : Ctx) (s : State) : ℚ :=
  iterAnorm c s * c.sq (iterDdnorm c s)

/-- `res2 = res2 + psi**2` (source line 287). -/
def iterRes2 (c : Ctx) (s : State) : ℚ := s.res2 + iterPsi c s ^ 2

/-- `rnorm = sqrt(res1 + res2)` with `res1 = phibar**2` (source lines
286-288). -/
def iterRnorm (c : Ctx) (s : State) : ℚ :=
  c.sq (iterPhibarNew c s ^ 2 + iterRes2 c s)

/-- `arnorm = alfa * abs(tau)` (source line 289). -/
def iterArnorm (c : Ctx) (s : State) : ℚ := iterAlfa c s * |iterTau c s|

/-- `r1sq = rnorm**2 - dampsq * xxnorm`, using the already-updated `xxnorm`
(source line 300). -/
def iterR1sq (c : Ctx) (s : State) : ℚ :=
  iterRnorm c s ^ 2 - c.damp ^ 2 * iterXxnorm c s

/-- Signed `r1norm = sqrt(abs(r1sq))`, negated when `r1sq < 0` (source
lines 301-302). -/
def iterR1norm (c : Ctx) (s : State) : ℚ :=
  if iterR1sq c s < 0 then -(c.sq |iterR1sq c s|) else c.sq |iterR1sq c s|

/-- `test1 = rnorm / bnorm` (source line 308). -/
def iterTest1 (c : Ctx) (s : State) : ℚ := iterRnorm c s / s.bnorm

/-- `test2 = arnorm / (anorm * rnorm)` (source line 309). -/
def iterTest2 (c : Ctx) (s : State) : ℚ :=
  iterArnorm c s / (iterAnorm c s * iterRnorm c s)

/-- `test3 = 1 / acond`, plus infinity when `acond == 0` (source lines
310-313). -/
def iterTest3 (c : Ctx) (s : State) : Option ℚ :=
  if iterAcond c s = 0 then none else some (1 / iterAcond c s)

/-- `t1 = test1 / (1 + anorm*xnorm/bnorm)` (source line 314; this reuses
and shadows the step scalar `t1`). -/
def iterT1test (c : Ctx) (s : State) : ℚ :=
  iterTest1 c s / (1 + iterAnorm c s * iterXnorm c s / s.bnorm)

/-- `rtol = btol + atol * anorm * xnorm / bnorm` (source line 315). -/
def iterRtol (c : Ctx) (s : State) : ℚ :=
  c.btol + c.atol * iterAnorm c s * iterXnorm c s / s.bnorm

/-- Stop code computed by the test cascade at the end of a full step. -/
def iterIstop (c : Ctx) (s : State) : ℕ :=
  computeIstop s.istop (s.itn + 1) c.itnlim (iterTest1 c s) (iterTest2 c s)
    (iterTest3 c s) (iterT1test c s) (iterRtol c s) c.atol c.ctol

/-- One pass of the main loop body (source lines 198-353).  The
bidiagonalization and the two plane rotations always run; the boundary
branch fires when a radius is given and `abs(t1) > abs(stepMax)` (source
lines 240-258); only when `tr_active` remains false do the full step and
the convergence tests run (source lines 260-332). -/
def iterate (c : Ctx) (s : State) : State :=
  let boundary : Option ℚ :=
    match c.radius with
    | none => none
    | some rad => if |trStepMax c s rad| < |iterT1 c s| then some rad else none
  match boundary with
  | some rad =>
    { s with
      u := iterU c s, v := iterV c s, alfa := iterAlfa c s,
      anorm := iterAnorm c s, rhobar := iterRhobarNew c s,
      phibar := iterPhibarNew c s,
      x := vadd s.x (smul (trStepMax c s rad) s.w),
      xnorm := rad,
      r1norm := normof2 c.sq (iterRho c s * trStepMax c s rad * iterSn c s)
        (iterRho c s * trStepMax c s rad * iterCs c s - iterPhibarNew c s),
      itn := s.itn + 1, istop := 8, trActive := true }
  | none =>
    if s.trActive then
      { s with
        u := iterU c s, v := iterV c s, alfa := iterAlfa c s,
        anorm := iterAnorm c s, rhobar := iterRhobarNew c s,
        phibar := iterPhibarNew c s, itn := s.itn + 1 }
    else
      { s with
        u := iterU c s, v := iterV c s, alfa := iterAlfa c s,
        anorm := iterAnorm c s, rhobar := iterRhobarNew c s,
        phibar := iterPhibarNew c s,
        x := iterX c s, w := iterW c s, ddnorm := iterDdnorm c s,
        xnorm := iterXnorm c s, cs2 := iterCs2 c s, sn2 := iterSn2 c s,
        z := iterZ c s, xxnorm := iterXxnorm c s, acond := iterAcond c s,
        res2 := iterRes2 c s, rnorm := iterRnorm c s,
        arnorm := iterArnorm c s, r1norm := iterR1norm c s,
        r2norm := iterRnorm c s,
        itn := s.itn + 1, istop := iterIstop c s, trActive := s.trActive }

/-- The main `while itn < itnlim` loop (source lines 197 and 353), run on
explicit fuel; since `itn` increases by one per pass and the guard requires
`itn < itnlim`, fuel `itnlim` makes the fuel bound unreachable. -/
def loop (c : Ctx) : ℕ → State → State
  | 0, s => s
  | fuel + 1, s =>
    if s.itn < c.itnlim then
      let s1 := iterate c s
      if 0 < s1.istop then s1 else loop c fuel s1
    else s

/-- Effective iteration limit: `itnlim == 0` selects the default `3 n`
(source line 128). -/
def effItnlim (A : LinOp) (itnlim : ℕ) : ℕ :=
  if itnlim = 0 then 3 * A.n else itnlim

/-- Context assembled by `solve` from its arguments. -/
def mkCtx (sq : ℚ → ℚ) (A : LinOp) (itnlim : ℕ)
    (damp atol btol conlim : ℚ) (radius : Option ℚ) : Ctx :=
  { sq := sq, A := A, damp := damp, atol := atol, btol := btol,
    ctol := ctolLocal conlim, radius := radius, itnlim := effItnlim A itnlim }

/-- Result record read off the final state (source lines 378-388). -/
def mkResult (s : State) : Result :=
  { x := s.x, istop := s.istop, itn := s.itn, r1norm := s.r1norm,
    r2norm := s.r2norm, anorm := s.anorm, acond := s.acond,
    arnorm := s.arnorm, xnorm := s.xnorm, onBoundary := s.trActive }

/-- The whole of `solve` apart from the `wantvar` failure: setup, the
`arnorm == 0` early exit (`x_is_zero`, source lines 170-177 and 197), the
main loop, and the result fields. -/
def solveCore (sq : ℚ → ℚ) (A : LinOp) (rhs : Vec) (itnlim : ℕ)
    (damp atol btol conlim : ℚ) (radius : Option ℚ) : Result :=
  let s0 := initState sq A rhs
  if initAlfa sq A rhs * initBeta sq A rhs = 0 then mkResult s0
  else mkResult (loop (mkCtx sq A itnlim damp atol btol conlim radius)
    (effItnlim A itnlim) s0)

/-- Entry point.  With `wantvar` the source executes `var = zeros(n, 1)`
(line 131): numpy `zeros` reads its second positional argument as the array
dtype, and the integer 1 is not a valid dtype, so numpy raises
`TypeError: data type not understood` before any solver state is built.
This is the only failure path of the embedding. -/
def solve (sq : ℚ → ℚ) (A : LinOp) (rhs : Vec) (itnlim : ℕ)
    (damp atol btol conlim : ℚ) (radius : Option ℚ) (wantvar : Bool) :
    Except String Result :=
  if wantvar then Except.error "TypeError: data type not understood"
  else Except.ok (solveCore sq A rhs itnlim damp atol btol conlim radius)

/-- The oracle used at concrete inputs where only the value at 0 matters. -/
def sqZero : ℚ → ℚ := fun _ => 0

/-- Identity operator on k-vectors. -/
def idOp (k : ℕ) : LinOp := ⟨k, k, id, id⟩

/-- Scaling operator `a * I` on k-vectors (its own transpose). -/
def scaleOp (k : ℕ) (a : ℚ) : LinOp :=
  ⟨k, k, fun l => l.map (fun t => a * t), fun l => l.map (fun t => a * t)⟩

/-- Oracle for the C6 witness: identity-run values. -/
def sqC6 : ℚ → ℚ := fun q => if q = 1 then 1 else if q = 9 then 3 else 0

/-- Context for the beta-collapse half of the C6 witness. -/
def ctxC6a : Ctx := ⟨sqC6, idOp 1, 0, 0, 0, 0, none, 100⟩

/-- State for the beta-collapse half of the C6 witness: `A v = v = u`
with `alfa = 1` makes the raw update the zero vector. -/
def stC6a : State where
  x := [0]
  u := [1]
  v := [1]
  w := [1]
  alfa := 1
  rhobar := 1
  phibar := 1
  cs2 := -1
  sn2 := 0
  z := 0
  xnorm := 0
  xxnorm := 0
  ddnorm := 0
  res2 := 0
  anorm := 0
  acond := 0
  rnorm := 1
  r1norm := 1
  r2norm := 1
  arnorm := 1
  bnorm := 1
  itn := 0
  istop := 0
  trActive := false

/-- Context for the alfa-collapse half of the C6 witness. -/
def ctxC6b : Ctx := ⟨sqC6, scaleOp 1 3, 0, 0, 0, 0, none, 100⟩

/-- State for the alfa-collapse half of the C6 witness: `beta = 3 > 0`
but the raw `v` update is the zero vector. -/
def stC6b : State := { stC6a with u := [0], v := [1], alfa := 0 }

/-- Oracle for the C3 failing input (all radicands are perfect squares). -/
def sqC3 : ℚ → ℚ :=
  fun q => if q = 9 then 3 else if q = 16 then 4 else if q = 25 then 5 else 0

/-- Context for the C3 failing input: damp 0, trust-region radius 2. -/
def ctxC3 : Ctx := ⟨sqC3, scaleOp 1 3, 0, 0, 0, 0, some 2, 100⟩

/-- Failing iteration state for C3.  The consistency facts hold that a real
run maintains: `dot x x = xnorm^2`, `trActive = false`, `istop = 0`.  The
sign pattern `rhobar < 0` (hence `t1 < 0`) arises at every second iteration
of a genuine run because line 229 sets `rhobar = -cs*alfa <= 0`, which
flips the sign of `phibar` through `cs1` on the next pass. -/
def stC3 : State where
  x := [1]
  u := [0]
  v := [1]
  w := [1]
  alfa := 2
  rhobar := -4
  phibar := 25
  cs2 := -1
  sn2 := 0
  z := 0
  xnorm := 1
  xxnorm := 0
  ddnorm := 0
  res2 := 0
  anorm := 0
  acond := 0
  rnorm := 0
  r1norm := 0
  r2norm := 0
  arnorm := 0
  bnorm := 0
  itn := 0
  istop := 0
  trActive := false

/-- Oracle for the C8 witness (all radicands of the pass are perfect
squares). -/
def sqC8 : ℚ → ℚ :=
  fun q => if q = 16 then 4 else if q = 9 then 3 else if q = 25 then 5
    else if q = 64 then 8 else 0

/-- Context for the C8 witness: operator `4 I` on 1-vectors, no damping,
no trust region. -/
def ctxC8 : Ctx := ⟨sqC8, scaleOp 1 4, 0, 0, 0, 0, none, 100⟩

/-- State for the C8 witness, satisfying the exact-arithmetic invariants:
`rnorm = r1norm = phibar = 10`, `res2 = xxnorm = 0`. -/
def stC8 : State where
  x := [0]
  u := [0]
  v := [1]
  w := [1]
  alfa := 0
  rhobar := 3
  phibar := 10
  cs2 := -1
  sn2 := 0
  z := 0
  xnorm := 0
  xxnorm := 0
  ddnorm := 0
  res2 := 0
  anorm := 0
  acond := 0
  rnorm := 10
  r1norm := 10
  r2norm := 10
  arnorm := 0
  bnorm := 10
  itn := 0
  istop := 0
  trActive := false


/-- Oracle for the C7 witness. -/
def sqC7 : ℚ → ℚ := fun q => if q = 25 then 5 else if q = 1 then 1 else 0

theorem dot_cons (a b : ℚ) (x y : Vec) :
    dot (a :: x) (b :: y) = a * b + dot x y := by
  simp [dot]

theorem smul_one_vec (x : Vec) : smul 1 x = x := by
  simp [smul]

theorem vdiv_one_vec (x : Vec) : vdiv x 1 = x := by
  simp [vdiv]

theorem length_vdiv (x : Vec) (a : ℚ) : (vdiv x a).length = x.length := by
  simp [vdiv]

theorem vsub_self_vec (x : Vec) : vsub x x = List.replicate x.length 0 := by
  induction x with
  | nil => rfl
  | cons a t ih => simp [vsub, List.replicate_succ] at *

theorem dot_replicate_zero (n : ℕ) (y : Vec) :
    dot (List.replicate n 0) y = 0 := by
  induction n generalizing y with
  | zero => simp [dot]
  | succ k ih =>
    cases y with
    | nil => simp [dot]
    | cons b t => simp [dot, List.replicate_succ] at *; exact ih t

theorem dot_vdiv_self (x : Vec) (a : ℚ) :
    dot (vdiv x a) (vdiv x a) = dot x x / a ^ 2 := by
  induction x with
  | nil => simp [dot, vdiv]
  | cons b t ih =>
    have h1 : vdiv (b :: t) a = (b / a) :: vdiv t a := rfl
    rw [h1, dot_cons, dot_cons, ih, div_mul_div_comm, ← div_add_div_same,
      pow_two]

theorem smul_vdiv_cancel (a : ℚ) (x : Vec) (h : a ≠ 0) :
    smul a (vdiv x a) = x := by
  induction x with
  | nil => rfl
  | cons b t ih =>
    have h1 : vdiv (b :: t) a = (b / a) :: vdiv t a := rfl
    have h2 : smul a ((b / a) :: vdiv t a) = (a * (b / a)) :: smul a (vdiv t a) := rfl
    rw [h1, h2, ih, mul_div_cancel₀ b h]

theorem vadd_replicate_zero (x : Vec) :
    vadd (List.replicate x.length 0) x = x := by
  induction x with
  | nil => rfl
  | cons b t ih => simp [vadd, List.replicate_succ] at *; exact ih

theorem le_of_mul_abs_le {a b : ℚ} (h : a * |a| ≤ b * |b|) : a ≤ b := by
  by_contra hab
  push_neg at hab
  rcases le_or_lt 0 b with hb | hb
  · have ha : 0 ≤ a := le_trans hb (le_of_lt hab)
    rw [abs_of_nonneg ha, abs_of_nonneg hb] at h
    nlinarith
  · rcases le_or_lt 0 a with ha | ha
    · rw [abs_of_nonneg ha, abs_of_neg hb] at h
      nlinarith
    · rw [abs_of_neg ha, abs_of_neg hb] at h
      nlinarith

theorem iterate_itn (c : Ctx) (s : State) : (iterate c s).itn = s.itn + 1 := by
  unfold iterate
  cases c.radius with
  | none => by_cases h : s.trActive = true <;> simp [h]
  | some rad =>
    by_cases h : |trStepMax c s rad| < |iterT1 c s| <;>
      by_cases h2 : s.trActive = true <;> simp [h, h2]

theorem iterate_bidiag_fields (c : Ctx) (s : State) :
    (iterate c s).u = iterU c s ∧ (iterate c s).v = iterV c s ∧
    (iterate c s).alfa = iterAlfa c s ∧ (iterate c s).anorm = iterAnorm c s := by
  unfold iterate
  cases c.radius with
  | none => by_cases h : s.trActive = true <;> simp [h]
  | some rad =>
    by_cases h : |trStepMax c s rad| < |iterT1 c s| <;>
      by_cases h2 : s.trActive = true <;> simp [h, h2]

theorem iterate_of_none (c : Ctx) (s : State) (hrad : c.radius = none)
    (htr : s.trActive = false) :
    iterate c s =
      { x := iterX c s, u := iterU c s, v := iterV c s, w := iterW c s,
        alfa := iterAlfa c s, rhobar := iterRhobarNew c s,
        phibar := iterPhibarNew c s, cs2 := iterCs2 c s, sn2 := iterSn2 c s,
        z := iterZ c s, xnorm := iterXnorm c s, xxnorm := iterXxnorm c s,
        ddnorm := iterDdnorm c s, res2 := iterRes2 c s,
        anorm := iterAnorm c s, acond := iterAcond c s,
        rnorm := iterRnorm c s, r1norm := iterR1norm c s,
        r2norm := iterRnorm c s, arnorm := iterArnorm c s, bnorm := s.bnorm,
        itn := s.itn + 1, istop := iterIstop c s, trActive := false } := by
  unfold iterate
  simp [hrad, htr]

theorem loop_itn_le (c : Ctx) : ∀ (fuel : ℕ) (s : State),
    (loop c fuel s).itn ≤ s.itn + fuel := by
  intro fuel
  induction fuel with
  | zero => intro s; simp [loop]
  | succ f ih =>
    intro s
    unfold loop
    by_cases h : s.itn < c.itnlim
    · simp only [h, if_true]
      by_cases h2 : 0 < (iterate c s).istop
      · simp only [h2, if_true, iterate_itn]; omega
      · simp only [h2, if_false]
        have := ih (iterate c s)
        rw [iterate_itn] at this
        omega
    · simp only [h, if_false]; omega

/-- C1.  The claim says stop code 3 is set exactly when
`test3 <= 1/conlim` (and no lower test fires).  The code never sets it:
line 138 assigns `1.0/conlim` to the attribute `self.ctol`, not to the
local `ctol` read by the test at line 330, so the local stays 0 and
`test3 <= ctol` cannot hold for a positive `test3`.  Concretely, with
`conlim = 10^8` and `test3 = 10^-9` (an `acond` of `10^9`, far beyond
`conlim`), `test3 <= 1/conlim` holds and tests 1 and 2 do not fire, yet
the cascade leaves `istop = 0` instead of 3, contradicting the docstring
(lines 95-99) and the comment at lines 317-321. -/
theorem C1_conlim_test_dead :
    ((1 : ℚ) / 10 ^ 9 ≤ 1 / 10 ^ 8) ∧ ctolLocal (10 ^ 8) = 0 ∧
    computeIstop 0 1 100 1 1 (some ((1 : ℚ) / 10 ^ 9)) 1 0 0
      (ctolLocal (10 ^ 8)) = 0 := by
  refine ⟨by norm_num, rfl, ?_⟩
  norm_num [computeIstop, ctolLocal, infLe, onePlusLeOne]

/-- C2.  When several stopping conditions hold in the same pass, the
assignment cascade of lines 323-332 returns the code of the last satisfied
test in the fixed evaluation order — machine-precision guards 7, 6, 5, 4
first, then user tolerances 3, 2, 1 — each later assignment overwriting
the earlier ones.  This is stated as: the cascade equals the spec-side
`lastSatisfied` fold over the ordered test list. -/
theorem C2_last_satisfied_wins (istop itn itnlim : ℕ) (test1 test2 : ℚ)
    (test3 : Option ℚ) (t1 rtol atol ctol : ℚ) :
    computeIstop istop itn itnlim test1 test2 test3 t1 rtol atol ctol =
      lastSatisfied istop
        (stopConds itn itnlim test1 test2 test3 t1 rtol atol ctol) := by
  simp [computeIstop, stopConds, lastSatisfied]

/-- C10.  Any call with `wantvar = True` fails during initialization:
`var = zeros(n, 1)` at line 131 passes the integer 1 as the numpy dtype,
which raises `TypeError` before the bidiagonalization is even set up, so
no solution or variance estimate is ever produced on this path. -/
theorem C10_wantvar_typeerror (sq : ℚ → ℚ) (A : LinOp) (rhs : Vec)
    (itnlim : ℕ) (damp atol btol conlim : ℚ) (radius : Option ℚ) :
    solve sq A rhs itnlim damp atol btol conlim radius true =
      Except.error "TypeError: data type not understood" := rfl

/-- C4 counterexample.  The claim says a right-hand side shorter than `m`
is rejected with a fatal error before the loop.  It is not: with `m = 1`
and the empty right-hand side, `u = rhs[:m]` silently truncates, `beta = 0`
makes `arnorm = 0`, and the call returns normally with `x = 0`,
`istop = 0` and no iteration — no error of any kind. -/
theorem C4_short_rhs_counterexample :
    ([] : Vec).length < (idOp 1).m ∧
    solve sqZero (idOp 1) [] 5 0 0 0 1 none false =
      Except.ok { x := [0], istop := 0, itn := 0, r1norm := 0, r2norm := 0,
                  anorm := 0, acond := 0, arnorm := 0, xnorm := 0,
                  onBoundary := false } := by
  refine ⟨by decide, ?_⟩
  norm_num [solve, solveCore, initState, initBeta, initAlfa, initU, mkResult,
    dot, sqZero, idOp, Result.mk.injEq]

/-- C4 amended.  `solve` performs no precondition validation at all: a
right-hand side shorter than `m` is silently truncated by `rhs[:m]`, and
in particular for an all-zero right-hand side shorter than `m` the call
completes normally with `x = 0`, stop code 0 and no iteration executed,
instead of being rejected.  (Shape inconsistencies of the operator are
likewise never checked by the solver itself; they can only surface as
exceptions raised inside the operator products.) -/
theorem C4_no_rejection (sq : ℚ → ℚ) (A : LinOp) (k : ℕ) (itnlim : ℕ)
    (damp atol btol conlim : ℚ) (radius : Option ℚ)
    (h0 : sq 0 = 0) (hk : k < A.m) :
    solve sq A (List.replicate k 0) itnlim damp atol btol conlim radius
        false =
      Except.ok { x := List.replicate A.n 0, istop := 0, itn := 0,
                  r1norm := 0, r2norm := 0, anorm := 0, acond := 0,
                  arnorm := 0, xnorm := 0, onBoundary := false } := by
  have hu : initU A (List.replicate k 0) = List.replicate (min A.m k) 0 := by
    simp [initU, List.take_replicate]
  have hb : initBeta sq A (List.replicate k 0) = 0 := by
    rw [initBeta, hu, dot_replicate_zero, h0]
  have ha : initAlfa sq A (List.replicate k 0) = 0 := by
    rw [initAlfa, hb, if_neg (lt_irrefl 0)]
  simp [solve, solveCore, ha, hb, mkResult, initState, hu,
    Result.mk.injEq]

/-- Witness for C4: a concrete short zero right-hand side. -/
theorem C4_no_rejection_witness :
    solve sqZero (idOp 2) [0] 7 0 0 0 1 none false =
      Except.ok { x := [0, 0], istop := 0, itn := 0, r1norm := 0,
                  r2norm := 0, anorm := 0, acond := 0, arnorm := 0,
                  xnorm := 0, onBoundary := false } := by
  have h := C4_no_rejection sqZero (idOp 2) 1 7 0 0 0 1 none rfl
    (by decide)
  simpa using h

/-- C5.  Whenever the initial product `arnorm = alfa * beta` is exactly
zero, `x_is_zero` is set (lines 170-177), the main loop is never entered
(line 197), and `solve` returns the zero vector of length `n` with stop
code 0 and `itn = 0`.  The second conjunct covers the spec instance: an
all-zero right-hand side produces `beta = 0` and hence `arnorm = 0` for
every operator. -/
theorem C5_zero_arnorm_early_exit (sq : ℚ → ℚ) (A : LinOp) (rhs : Vec)
    (itnlim : ℕ) (damp atol btol conlim : ℚ) (radius : Option ℚ) :
    (initAlfa sq A rhs * initBeta sq A rhs = 0 →
      solveCore sq A rhs itnlim damp atol btol conlim radius =
        { x := List.replicate A.n 0, istop := 0, itn := 0,
          r1norm := initBeta sq A rhs, r2norm := initBeta sq A rhs,
          anorm := 0, acond := 0, arnorm := 0, xnorm := 0,
          onBoundary := false }) ∧
    (∀ k : ℕ, rhs = List.replicate k 0 → sq 0 = 0 →
      initAlfa sq A rhs * initBeta sq A rhs = 0) := by
  constructor
  · intro h
    simp [solveCore, h, mkResult, initState, Result.mk.injEq]
  · intro k hk h0
    subst hk
    have hu : initU A (List.replicate k 0) = List.replicate (min A.m k) 0 := by
      simp [initU, List.take_replicate]
    have hb : initBeta sq A (List.replicate k 0) = 0 := by
      rw [initBeta, hu, dot_replicate_zero, h0]
    rw [hb, mul_zero]

/-- Witness for C5: the zero right-hand side of length 2 under the
identity operator. -/
theorem C5_zero_arnorm_witness :
    solveCore sqZero (idOp 2) [0, 0] 9 0 0 0 1 none =
      { x := [0, 0], istop := 0, itn := 0, r1norm := 0, r2norm := 0,
        anorm := 0, acond := 0, arnorm := 0, xnorm := 0,
        onBoundary := false } := by
  have h := C5_zero_arnorm_early_exit sqZero (idOp 2) [0, 0] 9 0 0 0 1 none
  have h2 := h.1 (h.2 2 rfl rfl)
  simpa using h2

/-- C6.  A collapse of `beta` or `alfa` to zero during the
bidiagonalization step is not an error.  If the fresh `beta` is not
positive, the guarded block of lines 206-211 is skipped entirely: `u`
keeps its raw (unrenormalized) update, while `v`, `alfa` and `anorm` are
frozen at their previous values, so later iterations keep using the
last-normalized `v`.  If `beta > 0` but the fresh `alfa` is not positive,
`v` keeps its raw update without renormalization (line 211).  Termination
then rests on the stop-code tests, whose iteration bound is proved for C9. -/
theorem C6_degenerate_freeze (c : Ctx) (s : State) :
    (¬ 0 < iterBeta c s →
      (iterate c s).u = iterUraw c s ∧ (iterate c s).v = s.v ∧
      (iterate c s).alfa = s.alfa ∧ (iterate c s).anorm = s.anorm) ∧
    (0 < iterBeta c s → ¬ 0 < iterAlfaRaw c s →
      (iterate c s).u = vdiv (iterUraw c s) (iterBeta c s) ∧
      (iterate c s).v = iterVraw c s ∧
      (iterate c s).alfa = iterAlfaRaw c s) := by
  obtain ⟨hu, hv, ha, han⟩ := iterate_bidiag_fields c s
  constructor
  · intro hb
    refine ⟨?_, ?_, ?_, ?_⟩
    · rw [hu, iterU, if_neg hb]
    · rw [hv, iterV, if_neg hb]
    · rw [ha, iterAlfa, if_neg hb]
    · rw [han, iterAnorm, if_neg hb]
  · intro hb hal
    refine ⟨?_, ?_, ?_⟩
    · rw [hu, iterU, if_pos hb]
    · rw [hv, iterV, if_pos hb, if_neg hal]
    · rw [ha, iterAlfa, if_pos hb]

/-- Witness for C6: both degenerate branches at concrete states. -/
theorem C6_degenerate_freeze_witness :
    ((iterate ctxC6a stC6a).u = [0] ∧ (iterate ctxC6a stC6a).v = [1] ∧
      (iterate ctxC6a stC6a).alfa = 1 ∧ (iterate ctxC6a stC6a).anorm = 0) ∧
    ((iterate ctxC6b stC6b).u = [1] ∧ (iterate ctxC6b stC6b).v = [0] ∧
      (iterate ctxC6b stC6b).alfa = 0) := by
  constructor
  · have h := (C6_degenerate_freeze ctxC6a stC6a).1
      (by norm_num [iterBeta, iterUraw, ctxC6a, stC6a, sqC6, idOp, vsub,
        smul, dot])
    refine ⟨?_, ?_, ?_, ?_⟩
    · rw [h.1]; norm_num [iterUraw, ctxC6a, stC6a, idOp, vsub, smul]
    · rw [h.2.1]; rfl
    · rw [h.2.2.1]; rfl
    · rw [h.2.2.2]; rfl
  · have h := (C6_degenerate_freeze ctxC6b stC6b).2
      (by norm_num [iterBeta, iterUraw, ctxC6b, stC6b, sqC6, scaleOp, vsub,
        smul, dot])
      (by norm_num [iterAlfaRaw, iterVraw, iterBeta, iterUraw, ctxC6b, stC6b,
        sqC6, scaleOp, vsub, smul, vdiv, dot])
    refine ⟨?_, ?_, ?_⟩
    · rw [h.1]
      norm_num [iterBeta, iterUraw, ctxC6b, stC6b, sqC6, scaleOp, vsub, smul,
        vdiv, dot]
    · rw [h.2.1]
      norm_num [iterVraw, iterBeta, iterUraw, ctxC6b, stC6b, sqC6, scaleOp,
        vsub, smul, vdiv, dot]
    · rw [h.2.2]
      norm_num [iterAlfaRaw, iterVraw, iterBeta, iterUraw, ctxC6b, stC6b,
        sqC6, scaleOp, vsub, smul, vdiv, dot]

/-- C3.  At this state the boundary branch fires (`t1 = -4`,
`stepMax = 3`, so `abs(t1) > abs(stepMax)`): the code records `istop = 8`,
`tr_active = True`, sets the `xnorm` bookkeeping field to the radius and
adds `stepMax * w` — but `stepMax` is `max(abs(r) ...)` (line 251), the
magnitude 3 of the root -3, not the root itself, although the adjacent
comment (lines 249-250) asks for the root with the same sign as `t1`.
The updated `x = [4]` has `dot x x = 16`, not `radius^2 = 4`, so the
claimed `norm(x) = radius` fails, while the signed root -3 would have
landed exactly on the boundary. -/
theorem C3_boundary_step_misses_radius :
    iterT1 ctxC3 stC3 = -4 ∧ trStepMax ctxC3 stC3 2 = 3 ∧
    dot stC3.x stC3.x = stC3.xnorm * stC3.xnorm ∧
    (iterate ctxC3 stC3).istop = 8 ∧
    (iterate ctxC3 stC3).trActive = true ∧
    (iterate ctxC3 stC3).xnorm = 2 ∧
    (iterate ctxC3 stC3).x = [4] ∧
    dot (iterate ctxC3 stC3).x (iterate ctxC3 stC3).x ≠ 2 * 2 ∧
    dot (vadd stC3.x (smul (-3) stC3.w)) (vadd stC3.x (smul (-3) stC3.w)) =
      2 * 2 := by
  norm_num [iterate, iterT1, iterPhi, iterCs, iterRho, iterRhobar1,
    iterPhibarMid, iterCs1, iterSn, iterBeta, iterUraw, iterPhibarNew,
    iterSn1, iterPsi, trStepMax, trCands, rootsQuadratic, listMax,
    normof2, iterU, iterV, iterVraw, iterAlfaRaw, iterAlfa, iterAnorm,
    normof4, iterRhobarNew, ctxC3, stC3, sqC3, scaleOp, vsub, smul, vadd,
    vdiv, dot, List.filter]

/-- C9.  Termination and the iteration limit.  First conjunct: passing
`itnlim = 0` is the same call as passing `3 n` (the default of line 128).
Second conjunct: the returned iteration count never exceeds the effective
limit — the loop structure guarantees at most `itnlim` passes, so the
(fuel-based, hence always terminating) embedding is exact.  Third
conjunct: when the pass that reaches the limit satisfies no other
stopping condition, the cascade returns exactly stop code 7. -/
theorem C9_iteration_limit (sq : ℚ → ℚ) (A : LinOp) (rhs : Vec)
    (itnlim : ℕ) (damp atol btol conlim : ℚ) (radius : Option ℚ)
    (istop itn itnlim2 : ℕ) (test1 test2 : ℚ) (test3 : Option ℚ)
    (t1 rtol atol2 ctol : ℚ) :
    (solveCore sq A rhs 0 damp atol btol conlim radius =
      solveCore sq A rhs (3 * A.n) damp atol btol conlim radius) ∧
    ((solveCore sq A rhs itnlim damp atol btol conlim radius).itn ≤
      effItnlim A itnlim) ∧
    (itnlim2 ≤ itn → onePlusLeOne test3 = false → ¬ 1 + test2 ≤ 1 →
      ¬ 1 + t1 ≤ 1 → infLe test3 ctol = false → ¬ test2 ≤ atol2 →
      ¬ test1 ≤ rtol →
      computeIstop istop itn itnlim2 test1 test2 test3 t1 rtol atol2
        ctol = 7) := by
  refine ⟨?_, ?_, ?_⟩
  · simp [solveCore, mkCtx, effItnlim]
  · by_cases h : initAlfa sq A rhs * initBeta sq A rhs = 0
    · simp [solveCore, h, mkResult, initState]
    · have hl := loop_itn_le
        (mkCtx sq A itnlim damp atol btol conlim radius)
        (effItnlim A itnlim) (initState sq A rhs)
      simp only [solveCore, h, if_neg, mkResult]
      simpa [initState] using hl
  · intro h1 h2 h3 h4 h5 h6 h7
    simp [computeIstop, h1, h2, h3, h4, h5, h6, h7]

/-- Witness for C9: limit reached at pass 5 of 5 with every other test
unsatisfied yields exactly stop code 7. -/
theorem C9_iteration_limit_witness :
    computeIstop 0 5 5 1 1 (some 1) 1 0 0 0 = 7 := by
  have h := C9_iteration_limit sqZero (idOp 1) [] 0 0 0 0 1 none 0 5 5 1 1
    (some 1) 1 0 0 0
  exact h.2.2 (le_refl 5) (by norm_num [onePlusLeOne]) (by norm_num)
    (by norm_num) (by norm_num [infLe]) (by norm_num) (by norm_num)

theorem signed_sqrt_mul_abs (r q : ℚ) (h1 : q ^ 2 = |r|) (h2 : 0 ≤ q) :
    (if r < 0 then -q else q) * |if r < 0 then -q else q| = r := by
  by_cases hc : r < 0
  · rw [if_pos hc, abs_neg, abs_of_nonneg h2]
    have h3 : |r| = -r := abs_of_neg hc
    nlinarith
  · rw [if_neg hc, abs_of_nonneg h2]
    have h3 : |r| = r := abs_of_nonneg (not_lt.1 hc)
    nlinarith

theorem rot_bound (a b r : ℚ) (h : r ^ 2 = a ^ 2 + b ^ 2) :
    (a / r) ^ 2 + (b / r) ^ 2 ≤ 1 := by
  by_cases hr : r = 0
  · simp [hr]
  · have h2 : r ^ 2 ≠ 0 := pow_ne_zero 2 hr
    rw [div_pow, div_pow, div_add_div_same, ← h, div_self h2]

theorem div_sq_le_one (b p r : ℚ) (h : r ^ 2 = p ^ 2 + b ^ 2) :
    (b / r) ^ 2 ≤ 1 := by
  by_cases hr : r = 0
  · simp [hr]
  · rw [div_pow]
    apply div_le_one_of_le₀
    · nlinarith [sq_nonneg p]
    · exact sq_nonneg r

theorem rnorm_step_le (sn cs1 sn1 pb r2 : ℚ) (hsn : sn ^ 2 ≤ 1)
    (hb : cs1 ^ 2 + sn1 ^ 2 ≤ 1) :
    (sn * (cs1 * pb)) ^ 2 + (r2 + (sn1 * pb) ^ 2) ≤ pb ^ 2 + r2 := by
  have hA : sn ^ 2 * cs1 ^ 2 ≤ cs1 ^ 2 := by nlinarith [sq_nonneg cs1]
  nlinarith [mul_le_mul_of_nonneg_right hA (sq_nonneg pb),
    mul_le_mul_of_nonneg_right hb (sq_nonneg pb)]

/-- C8.  Over a full (non-boundary) iteration, `r1norm` does not increase.
Hypotheses: the invariants the recursion maintains in exact arithmetic at
the start of the pass (`rnorm^2 = phibar^2 + res2` from line 288 of the
previous pass, and the signed-square characterization of the stored
`r1norm` from lines 300-302), plus exactness of the square root at the
radicands this pass evaluates (`rhobar1`, `rho`, the new `rnorm` and the
new `r1norm`).  The two plane rotations then shrink
`phibar^2 + res2` (since `sn^2*cs1^2 + sn1^2 <= 1`), `xxnorm` only grows,
and the signed square root is monotone, so the freshly stored `r1norm` is
at most the previous one.  Applied at each pass this makes the recorded
`r1norm` sequence non-increasing. -/
theorem C8_r1norm_nonincreasing (c : Ctx) (s : State)
    (hrad : c.radius = none) (htr : s.trActive = false)
    (hinv : s.rnorm ^ 2 = s.phibar ^ 2 + s.res2)
    (hr1 : s.r1norm * |s.r1norm| = s.rnorm ^ 2 - c.damp ^ 2 * s.xxnorm)
    (hrb1 : iterRhobar1 c s ^ 2 = s.rhobar ^ 2 + c.damp ^ 2)
    (hrho : iterRho c s ^ 2 = iterRhobar1 c s ^ 2 + iterBeta c s ^ 2)
    (hrn : iterRnorm c s ^ 2 = iterPhibarNew c s ^ 2 + iterRes2 c s)
    (hsq : c.sq |iterR1sq c s| ^ 2 = |iterR1sq c s|)
    (hsqn : 0 ≤ c.sq |iterR1sq c s|) :
    (iterate c s).r1norm ≤ s.r1norm := by
  have hproj : (iterate c s).r1norm = iterR1norm c s := by
    rw [iterate_of_none c s hrad htr]
  rw [hproj]
  have hdef : iterR1norm c s =
      if iterR1sq c s < 0 then -(c.sq |iterR1sq c s|)
      else c.sq |iterR1sq c s| := rfl
  have key1 : iterR1norm c s * |iterR1norm c s| = iterR1sq c s := by
    rw [hdef]
    exact signed_sqrt_mul_abs (iterR1sq c s) (c.sq |iterR1sq c s|) hsq hsqn
  have hb1 : iterCs1 c s ^ 2 + iterSn1 c s ^ 2 ≤ 1 :=
    rot_bound s.rhobar c.damp (iterRhobar1 c s) hrb1
  have hsn : iterSn c s ^ 2 ≤ 1 :=
    div_sq_le_one (iterBeta c s) (iterRhobar1 c s) (iterRho c s) hrho
  have hrmono : iterRnorm c s ^ 2 ≤ s.rnorm ^ 2 := by
    have e1 : iterPhibarNew c s = iterSn c s * (iterCs1 c s * s.phibar) := rfl
    have e2 : iterRes2 c s = s.res2 + (iterSn1 c s * s.phibar) ^ 2 := rfl
    rw [hrn, hinv, e1, e2]
    exact rnorm_step_le (iterSn c s) (iterCs1 c s) (iterSn1 c s) s.phibar
      s.res2 hsn hb1
  have hxx : s.xxnorm ≤ iterXxnorm c s := by
    have e3 : iterXxnorm c s = s.xxnorm + iterZ c s * iterZ c s := rfl
    rw [e3]
    exact le_add_of_nonneg_right (mul_self_nonneg (iterZ c s))
  have key2 : iterR1sq c s ≤ s.r1norm * |s.r1norm| := by
    rw [hr1, iterR1sq]
    exact sub_le_sub hrmono (mul_le_mul_of_nonneg_left hxx (sq_nonneg c.damp))
  exact le_of_mul_abs_le (by rw [key1]; exact key2)

/-- Witness for C8: at the concrete state the pass produces
`r1norm = 8 <= 10`. -/
theorem C8_r1norm_nonincreasing_witness :
    (iterate ctxC8 stC8).r1norm ≤ 10 := by
  have hbeta : iterBeta ctxC8 stC8 = 4 := by
    norm_num [iterBeta, iterUraw, ctxC8, stC8, sqC8, scaleOp, vsub, smul, dot]
  have hrb1v : iterRhobar1 ctxC8 stC8 = 3 := by
    norm_num [iterRhobar1, normof2, ctxC8, stC8, sqC8]
  have hrhov : iterRho ctxC8 stC8 = 5 := by
    rw [iterRho, hrb1v, hbeta]; norm_num [normof2, ctxC8, sqC8]
  have hpb : iterPhibarNew ctxC8 stC8 = 8 := by
    rw [iterPhibarNew, iterSn, iterPhibarMid, iterCs1, hrhov, hrb1v, hbeta]
    norm_num [ctxC8, stC8]
  have hres2 : iterRes2 ctxC8 stC8 = 0 := by
    rw [iterRes2, iterPsi, iterSn1, hrb1v]
    norm_num [ctxC8, stC8]
  have hrnv : iterRnorm ctxC8 stC8 = 8 := by
    rw [iterRnorm, hpb, hres2]; norm_num [ctxC8, sqC8]
  have hr1sqv : iterR1sq ctxC8 stC8 = 64 := by
    rw [iterR1sq, hrnv]; norm_num [ctxC8]
  have h := C8_r1norm_nonincreasing ctxC8 stC8 rfl rfl
    (by norm_num [stC8]) (by norm_num [stC8, ctxC8])
    (by rw [hrb1v]; norm_num [stC8, ctxC8])
    (by rw [hrhov, hrb1v, hbeta]; norm_num)
    (by rw [hrnv, hpb, hres2]; norm_num)
    (by rw [hr1sqv]; norm_num [ctxC8, sqC8])
    (by rw [hr1sqv]; norm_num [ctxC8, sqC8])
  simpa [stC8] using h

/-- C7.  For the identity operator with `damp = 0` and a nonzero
right-hand side, the first pass already produces `x = rhs` exactly and
stop code 1, and the loop stops there.  The square-root facts needed are
exactness at `dot rhs rhs` (so that `u` and `v` normalize to unit
vectors), `sq 0 = 0`, `sq 1 = 1`, positivity of `beta` (the nonzero
right-hand side), and `btol >= 0` so that `test1 = 0 <= rtol = btol`
fires stop code 1 at the end of the cascade. -/
theorem C7_identity_solution (sq : ℚ → ℚ) (A : LinOp) (rhs : Vec)
    (itnlim : ℕ) (atol btol conlim : ℚ)
    (hap : A.apply = id) (hat : A.applyT = id)
    (hm : A.m = rhs.length) (hn : A.n = rhs.length)
    (h0 : sq 0 = 0) (h1 : sq 1 = 1)
    (hb : sq (dot rhs rhs) * sq (dot rhs rhs) = dot rhs rhs)
    (hpos : 0 < sq (dot rhs rhs)) (hbtol : 0 ≤ btol) :
    (solveCore sq A rhs itnlim 0 atol btol conlim none).x = rhs ∧
    (solveCore sq A rhs itnlim 0 atol btol conlim none).istop = 1 ∧
    (solveCore sq A rhs itnlim 0 atol btol conlim none).itn = 1 := by
  have hU0 : initU A rhs = rhs := by rw [initU, hm, List.take_length]
  have hB : initBeta sq A rhs = sq (dot rhs rhs) := by rw [initBeta, hU0]
  have hβpos : 0 < initBeta sq A rhs := by rw [hB]; exact hpos
  have hβne : initBeta sq A rhs ≠ 0 := ne_of_gt hβpos
  have hdz : dot rhs rhs ≠ 0 := by
    intro h
    rw [h, h0] at hpos
    exact lt_irrefl 0 hpos
  have hVr : initVraw sq A rhs = vdiv rhs (initBeta sq A rhs) := by
    rw [initVraw, hU0, hat, id_eq]
  have hdot1 : dot (vdiv rhs (initBeta sq A rhs))
      (vdiv rhs (initBeta sq A rhs)) = 1 := by
    rw [dot_vdiv_self, hB, pow_two, hb, div_self hdz]
  have hA1 : initAlfa sq A rhs = 1 := by
    rw [initAlfa, if_pos hβpos, hVr, hdot1, h1]
  set C := mkCtx sq A itnlim 0 atol btol conlim none with hC
  set s0 := initState sq A rhs with hs0def
  have hs0u : s0.u = vdiv rhs (initBeta sq A rhs) := by
    rw [hs0def, initState]
    simp only [if_pos hβpos, hU0]
  have hs0v : s0.v = vdiv rhs (initBeta sq A rhs) := by
    rw [hs0def, initState]
    simp only [hA1, if_pos (zero_lt_one (α := ℚ)), hVr, vdiv_one_vec]
  have hs0w : s0.w = vdiv rhs (initBeta sq A rhs) := by
    rw [hs0def, initState]
    simp only [hA1, if_pos (zero_lt_one (α := ℚ)), hVr, vdiv_one_vec]
  have hs0alfa : s0.alfa = 1 := by rw [hs0def, initState]; exact hA1
  have hs0rhobar : s0.rhobar = 1 := by rw [hs0def, initState]; exact hA1
  have hs0phibar : s0.phibar = initBeta sq A rhs := by rw [hs0def, initState]
  have hs0x : s0.x = List.replicate rhs.length 0 := by
    rw [hs0def, initState, hn]
  have hs0bnorm : s0.bnorm = initBeta sq A rhs := by rw [hs0def, initState]
  have hCsq : C.sq = sq := rfl
  have hCdamp : C.damp = 0 := rfl
  have hCatol : C.atol = atol := rfl
  have hCbtol : C.btol = btol := rfl
  have hCctol : C.ctol = 0 := rfl
  have hCA : C.A = A := rfl
  have g1 : iterUraw C s0 = List.replicate rhs.length 0 := by
    rw [iterUraw, hCA, hap, id_eq, hs0v, hs0alfa, hs0u, smul_one_vec,
      vsub_self_vec, length_vdiv]
  have g2 : iterBeta C s0 = 0 := by
    rw [iterBeta, g1, dot_replicate_zero]
    exact h0
  have g3 : ¬ 0 < iterBeta C s0 := by rw [g2]; exact lt_irrefl 0
  have g4 : iterAlfa C s0 = 1 := by rw [iterAlfa, if_neg g3]; exact hs0alfa
  have g5 : iterAnorm C s0 = 0 := by
    rw [iterAnorm, if_neg g3, hs0def, initState]
  have g6 : iterRhobar1 C s0 = 1 := by
    rw [iterRhobar1, hs0rhobar, hCdamp, normof2]
    norm_num
    exact h1
  have g7 : iterRho C s0 = 1 := by
    rw [iterRho, g6, g2, normof2]
    norm_num
    exact h1
  have g8 : iterCs1 C s0 = 1 := by
    rw [iterCs1, hs0rhobar, g6]
    norm_num
  have g9 : iterSn1 C s0 = 0 := by
    rw [iterSn1, g6, hCdamp]
    norm_num
  have gsn : iterSn C s0 = 0 := by
    rw [iterSn, g2, g7]
    norm_num
  have gcs : iterCs C s0 = 1 := by
    rw [iterCs, g6, g7]
    norm_num
  have gpbmid : iterPhibarMid C s0 = initBeta sq A rhs := by
    rw [iterPhibarMid, g8, hs0phibar, one_mul]
  have gphi : iterPhi C s0 = initBeta sq A rhs := by
    rw [iterPhi, gcs, gpbmid, one_mul]
  have gpbnew : iterPhibarNew C s0 = 0 := by
    rw [iterPhibarNew, gsn, zero_mul]
  have gpsi : iterPsi C s0 = 0 := by rw [iterPsi, g9, zero_mul]
  have gtau : iterTau C s0 = 0 := by rw [iterTau, gsn, zero_mul]
  have gT1 : iterT1 C s0 = initBeta sq A rhs := by
    rw [iterT1, gphi, g7, div_one]
  have gX : iterX C s0 = rhs := by
    rw [iterX, gT1, hs0w, hs0x, smul_vdiv_cancel _ _ hβne,
      vadd_replicate_zero]
  have gres2 : iterRes2 C s0 = 0 := by
    rw [iterRes2, gpsi]
    have : s0.res2 = 0 := by rw [hs0def, initState]
    rw [this]
    norm_num
  have grnorm : iterRnorm C s0 = 0 := by
    rw [iterRnorm, gpbnew, gres2]
    norm_num
    exact h0
  have gtest1 : iterTest1 C s0 = 0 := by
    rw [iterTest1, grnorm, zero_div]
  have garnorm : iterArnorm C s0 = 0 := by
    rw [iterArnorm, gtau, g4]
    norm_num
  have gtest2 : iterTest2 C s0 = 0 := by
    rw [iterTest2, garnorm, zero_div]
  have gacond : iterAcond C s0 = 0 := by
    rw [iterAcond, g5, zero_mul]
  have gtest3 : iterTest3 C s0 = none := by
    rw [iterTest3, if_pos gacond]
  have gt1t : iterT1test C s0 = 0 := by
    rw [iterT1test, gtest1, zero_div]
  have grtol : iterRtol C s0 = btol := by
    rw [iterRtol, g5, hCbtol, hCatol, mul_zero, zero_mul, zero_div, add_zero]
  have gistop : iterIstop C s0 = 1 := by
    rw [iterIstop, gtest1, gtest2, gtest3, gt1t, grtol]
    simp only [computeIstop]
    rw [if_pos hbtol]
  have htr0 : s0.trActive = false := by rw [hs0def, initState]
  have hrad0 : C.radius = none := rfl
  have hitfull := iterate_of_none C s0 hrad0 htr0
  have histop1 : (iterate C s0).istop = 1 := by rw [hitfull]; exact gistop
  have hx1 : (iterate C s0).x = rhs := by rw [hitfull]; exact gX
  have hitn0 : s0.itn = 0 := by rw [hs0def, initState]
  have hitn1 : (iterate C s0).itn = 1 := by rw [hitfull]; simp [hitn0]
  have hcond : ¬ initAlfa sq A rhs * initBeta sq A rhs = 0 := by
    rw [hA1, one_mul]
    exact hβne
  have hne : rhs ≠ [] := by
    intro h
    apply hdz
    rw [h]
    rfl
  have hlen : 0 < rhs.length := List.length_pos.mpr hne
  have hL : 0 < effItnlim A itnlim := by
    by_cases hit : itnlim = 0
    · simp [effItnlim, hit, hn]
      omega
    · simp [effItnlim, hit]
      exact Nat.pos_of_ne_zero hit
  obtain ⟨f, hf⟩ : ∃ f, effItnlim A itnlim = f + 1 :=
    ⟨effItnlim A itnlim - 1, (Nat.succ_pred_eq_of_pos hL).symm⟩
  have hCitn : C.itnlim = f + 1 := by rw [hC]; exact hf
  have hloop : loop C (effItnlim A itnlim) s0 = iterate C s0 := by
    rw [hf]
    simp only [loop]
    rw [if_pos (by rw [hCitn, hitn0]; exact Nat.succ_pos f)]
    simp only [histop1]
    norm_num
  have hfinal : solveCore sq A rhs itnlim 0 atol btol conlim none =
      mkResult (iterate C s0) := by
    rw [solveCore]
    simp only [← hC, ← hs0def]
    rw [if_neg hcond, hloop]
  rw [hfinal]
  exact ⟨hx1, ⟨histop1, hitn1⟩⟩

/-- Witness for C7: `rhs = [3, 4]` under the 2-dimensional identity. -/
theorem C7_identity_solution_witness :
    (solveCore sqC7 (idOp 2) [3, 4] 0 0 0 0 1 none).x = [3, 4] ∧
    (solveCore sqC7 (idOp 2) [3, 4] 0 0 0 0 1 none).istop = 1 ∧
    (solveCore sqC7 (idOp 2) [3, 4] 0 0 0 0 1 none).itn = 1 := by
  have h := C7_identity_solution sqC7 (idOp 2) [3, 4] 0 0 0 1 rfl rfl rfl rfl
    (by norm_num [sqC7]) (by norm_num [sqC7])
    (by norm_num [sqC7, dot]) (by norm_num [sqC7, dot]) le_rfl
  exact h

end LSQR
